import Mathlib

/-!
# Verification of `generate_life_calendar.py`

A shallow embedding of the life-calendar generator.  The program's dates are
Python `datetime` values; here a calendar date is a `(year, month, day)`
record, and a `datetime`/`date` value flowing through the grid code is
represented by its proleptic-Gregorian ordinal (`Int`, with day 1 =
0001-01-01), which is exactly how CPython's `datetime` implements ordering and
`timedelta` arithmetic.  The wall-clock date (`datetime.date.today()`), read
inside `is_week_in_past`, is injected as an explicit `today` ordinal
parameter, so the classifier is a deterministic function of its inputs.

Fallible Python code (constructors and parsers that raise `ValueError`) is
embedded in `Except Unit` / `Except CalError`.
-/

set_option maxRecDepth 100000

namespace LifeCal

/-- Gregorian leap year, as CPython's `datetime._is_leap`:
`year % 4 == 0 and (year % 100 != 0 or year % 400 == 0)`. -/
def isLeap (y : Int) : Bool :=
  y % 4 == 0 && (y % 100 != 0 || y % 400 == 0)

/-- CPython `datetime._days_in_month` (month is 1-based). -/
def daysInMonth (y : Int) (m : Nat) : Nat :=
  if m = 2 then (if isLeap y then 29 else 28)
  else if m = 4 ∨ m = 6 ∨ m = 9 ∨ m = 11 then 30
  else 31

/-- A calendar date, the `(year, month, day)` triple a Python
`datetime.date` stores. -/
structure Date where
  year : Int
  month : Nat
  day : Nat
deriving DecidableEq, Repr

/-- CPython `datetime._check_date_fields`: `datetime(y, m, d)` succeeds
exactly when `MINYEAR = 1 <= y <= 9999 = MAXYEAR`, `1 <= m <= 12` and
`1 <= d <= days_in_month(y, m)`; otherwise it raises `ValueError`. -/
def validDate (y : Int) (m d : Nat) : Bool :=
  decide (1 ≤ y ∧ y ≤ 9999 ∧ 1 ≤ m ∧ m ≤ 12 ∧ 1 ≤ d ∧ d ≤ daysInMonth y m)

/-- CPython `datetime._days_before_month`: days in year `y` preceding
month `m` (cumulative table plus the leap correction after February). -/
def daysBeforeMonth (y : Int) (m : Nat) : Nat :=
  [0, 31, 59, 90, 120, 151, 181, 212, 243, 273, 304, 334].getD (m - 1) 0
    + (if 2 < m ∧ isLeap y = true then 1 else 0)

/-- CPython `datetime._ymd2ord`: proleptic-Gregorian ordinal of a date,
with 0001-01-01 = ordinal 1.  `_days_before_year(y) = (y-1)*365 +
(y-1)//4 - (y-1)//100 + (y-1)//400` (Python `//` on non-negative values
is `Int.ediv`). -/
def toOrdinal (dt : Date) : Int :=
  365 * (dt.year - 1) + (dt.year - 1) / 4 - (dt.year - 1) / 100
    + (dt.year - 1) / 400 + (daysBeforeMonth dt.year dt.month : Int) + (dt.day : Int)

/-- Ordinal back to `(year, month, day)`, the inverse CPython computes in
`datetime._ord2ymd`; written here as the standard closed-form
civil-from-days computation on the same proleptic-Gregorian calendar
(`n + 305` shifts the Python ordinal onto a 0000-03-01 day count). -/
def fromOrdinal (n : Int) : Date :=
  let z := n + 305
  let era := z / 146097
  let doe := z - era * 146097
  let yoe := (doe - doe / 1460 + doe / 36524 - doe / 146096) / 365
  let y := yoe + era * 400
  let doy := doe - (365 * yoe + yoe / 4 - yoe / 100)
  let mp := (5 * doy + 2) / 153
  let d := doy - (153 * mp + 2) / 5 + 1
  let m := if mp < 10 then mp + 3 else mp - 9
  ⟨y + (if m ≤ 2 then 1 else 0), m.toNat, d.toNat⟩

/-- CPython `date.weekday()`: `(toordinal() + 6) % 7`, Monday = 0. -/
def weekday (n : Int) : Int := (n + 6) % 7

/-- The `datetime.datetime(year, month, day)` constructor: validates the
fields and yields the ordinal of the date, or raises (`Except.error`). -/
def mkDatetime (y : Int) (m d : Nat) : Except Unit Int :=
  if validDate y m d then .ok (toOrdinal ⟨y, m, d⟩) else .error ()

/-! ## `parse_date` (source lines 48-60)

`datetime.datetime.strptime(s, f)` for the two formats `'%d/%m/%Y'` and
`'%d-%m-%Y'`.  CPython compiles the format to the regular expression
`(3[01]|[12]\d|0[1-9]|[1-9])` `sep` `(1[0-2]|0[1-9]|[1-9])` `sep`
`(\d\d\d\d)`, anchored at the start; the two-digit alternatives of each
day/month group come before the one-digit one, matching backtracks over
those alternatives, the match must consume the whole string
("unconverted data remains" otherwise), and the matched fields are then
passed to the `datetime` constructor, which raises on e.g. 31/02. -/

/-- Numeric value of a digit character. -/
def digitVal (c : Char) : Nat := c.toNat - 48

/-- The `%d` directive `(3[01]|[12]\d|0[1-9]|[1-9])`: candidate
`(value, rest)` pairs in regex alternation order (two digits first).
A two-digit window matches exactly when its value is in `[1, 31]`. -/
def matchDay : List Char → List (Nat × List Char)
  | c1 :: c2 :: rest =>
      (if c1.isDigit && c2.isDigit
          && decide (1 ≤ 10 * digitVal c1 + digitVal c2 ∧ 10 * digitVal c1 + digitVal c2 ≤ 31)
       then [(10 * digitVal c1 + digitVal c2, rest)] else [])
        ++ (if c1.isDigit && decide (1 ≤ digitVal c1) then [(digitVal c1, c2 :: rest)] else [])
  | [c1] => if c1.isDigit && decide (1 ≤ digitVal c1) then [(digitVal c1, [])] else []
  | [] => []

/-- The `%m` directive `(1[0-2]|0[1-9]|[1-9])`: a two-digit window
matches exactly when its value is in `[1, 12]`. -/
def matchMonth : List Char → List (Nat × List Char)
  | c1 :: c2 :: rest =>
      (if c1.isDigit && c2.isDigit
          && decide (1 ≤ 10 * digitVal c1 + digitVal c2 ∧ 10 * digitVal c1 + digitVal c2 ≤ 12)
       then [(10 * digitVal c1 + digitVal c2, rest)] else [])
        ++ (if c1.isDigit && decide (1 ≤ digitVal c1) then [(digitVal c1, c2 :: rest)] else [])
  | [c1] => if c1.isDigit && decide (1 ≤ digitVal c1) then [(digitVal c1, [])] else []
  | [] => []

/-- The `%Y` directive `(\d\d\d\d)`: exactly four digits. -/
def matchYear : List Char → Option (Nat × List Char)
  | a :: b :: c :: d :: rest =>
      if a.isDigit && b.isDigit && c.isDigit && d.isDigit then
        some (1000 * digitVal a + 100 * digitVal b + 10 * digitVal c + digitVal d, rest)
      else none
  | _ => none

/-- Continuation after a day and month candidate: the second separator,
then `%Y` (which must consume the rest of the string — CPython raises
"unconverted data remains" otherwise), then the `datetime(y, m, d)`
field validation. -/
def monthCont (sep : Char) (dayv : Nat) (mc : Nat × List Char) : Option Date :=
  match mc.2 with
  | c2 :: r2 =>
      if c2 = sep then
        match matchYear r2 with
        | some (y, []) =>
            if validDate (Int.ofNat y) mc.1 dayv then some ⟨Int.ofNat y, mc.1, dayv⟩
            else none
        | _ => none
      else none
  | [] => none

/-- Continuation after a day candidate: the first separator, then the
`%m` alternatives in regex order. -/
def dayCont (sep : Char) (dc : Nat × List Char) : Option Date :=
  match dc.2 with
  | c :: r1 => if c = sep then (matchMonth r1).findSome? (monthCont sep dc.1) else none
  | [] => none

/-- `datetime.datetime.strptime(s, '%d' sep '%m' sep '%Y')`: regex match of
the whole string (backtracking, in regex alternation order, over the
day/month alternative lengths), then the `datetime` field validation. -/
def strptimeDMY (sep : Char) (s : String) : Option Date :=
  (matchDay s.data).findSome? (dayCont sep)

/-- The `formats` list of `parse_date`: `['%d/%m/%Y', '%d-%m-%Y']`,
represented by the separator of each format. -/
def formats : List Char := ['/', '-']

/-- The `for f in formats` loop body of `parse_date`: return the first
successful parse, raise `ValueError` when every format fails. -/
def parse_date_go (date : String) : List Char → Except Unit Date
  | [] => .error ()
  | f :: rest =>
      match strptimeDMY f date with
      | some ret => .ok ret
      | none => parse_date_go date rest

/-- Python `str.strip()` with no argument: remove leading and trailing
whitespace. -/
def pyStrip (s : String) : String :=
  String.mk (((s.data.dropWhile Char.isWhitespace).reverse.dropWhile Char.isWhitespace).reverse)

set_option linter.unusedVariables false in
/-- `parse_date` (source lines 48-60).  Note the source computes
`stripped = date.strip()` and then parses the original `date` in both
attempts; the stripped value is never used. -/
def parse_date (date : String) : Except Unit Date :=
  let stripped := pyStrip date
  parse_date_go date formats

deriving instance DecidableEq for Except

example : parse_date "15/03/1990" = .ok ⟨1990, 3, 15⟩ := by decide
example : parse_date "15-03-1990" = .ok ⟨1990, 3, 15⟩ := by decide
example : parse_date "5/3/1990" = .ok ⟨1990, 3, 5⟩ := by decide
example : parse_date "31/02/1990" = .error () := by decide
example : parse_date "29/02/2016" = .ok ⟨2016, 2, 29⟩ := by decide
example : parse_date "29/02/2017" = .error () := by decide
example : parse_date " 15/03/1990 " = .error () := by decide
example : toOrdinal ⟨1970, 1, 1⟩ = 719163 := by decide
example : fromOrdinal 719163 = ⟨1970, 1, 1⟩ := by decide
example : fromOrdinal 1 = ⟨1, 1, 1⟩ := by decide
example : fromOrdinal (toOrdinal ⟨2016, 2, 29⟩) = ⟨2016, 2, 29⟩ := by decide
example : fromOrdinal (toOrdinal ⟨1999, 12, 31⟩) = ⟨1999, 12, 31⟩ := by decide
example : fromOrdinal (toOrdinal ⟨2000, 3, 1⟩) = ⟨2000, 3, 1⟩ := by decide
example : weekday (toOrdinal ⟨1990, 3, 15⟩) = 3 := by decide
example : weekday (toOrdinal ⟨2026, 10, 12⟩) = 0 := by decide

/-! ## The week classifier (source lines 81-112) -/

/-- The four fill states a grid square can take in `draw_row`:
`white` is the default `(1, 1, 1)` fill, the others are `LIVED_COLOUR`,
`BIRTHDAY_COLOUR` and `NEWYEAR_COLOUR`. -/
inductive Fill where
  | white
  | lived
  | birthday
  | newYear
deriving DecidableEq, Repr

/-- `is_current_week(now, month, day)` (source lines 81-86): `now` is the
cell's datetime (ordinal), `end = now + timedelta(weeks=1)`; both
`datetime(now.year, month, day)` and `datetime(now.year + 1, month, day)`
are constructed before the comparisons, so either invalid construction
raises. -/
def is_current_week (now : Int) (month day : Nat) : Except Unit Bool := do
  let e := now + 7
  let y := (fromOrdinal now).year
  let date1 ← mkDatetime y month day
  let date2 ← mkDatetime (y + 1) month day
  pure (decide ((now ≤ date1 ∧ date1 < e) ∨ (now ≤ date2 ∧ date2 < e)))

/-- `last_monday` of `is_week_in_past` (source line 90):
`today - timedelta(days=today.weekday())`. -/
def lastMonday (today : Int) : Int := today - weekday today

/-- `is_week_in_past(date)` (source lines 88-91), with the wall-clock
`datetime.date.today()` injected as the `today` parameter:
`date < last_monday`. -/
def is_week_in_past (today : Int) (date : Int) : Bool :=
  decide (date < lastMonday today)

/-- The classification of one square in the `draw_row` loop body (source
lines 101-108): first-match-wins over LIVED, BIRTHDAY, NEW_YEAR, with the
white default.  `start_month`/`start_day` are `start_date.month` and
`start_date.day` of the `start_date` argument of `draw_row`. -/
def cellFill (today : Int) (fill_lived : Bool) (start_month start_day : Nat) (date : Int) :
    Except Unit Fill :=
  if fill_lived && is_week_in_past today date then
    .ok .lived
  else do
    let b ← is_current_week date start_month start_day
    if b then
      pure .birthday
    else
      let ny ← is_current_week date 1 1
      if ny then pure .newYear else pure .white

def NUM_ROWS : Nat := 88
def NUM_COLUMNS : Nat := 52

/-- The `for i in range(NUM_COLUMNS)` loop of `draw_row` (source lines
100-112): each square is classified at the running `date`, which then
advances by `timedelta(weeks=1)` = 7 days. -/
def draw_row_go (today : Int) (sm sd : Nat) (fill_lived : Bool) :
    Nat → Int → Except Unit (List Fill)
  | 0, _ => .ok []
  | n + 1, date => do
      let f ← cellFill today fill_lived sm sd date
      let rest ← draw_row_go today sm sd fill_lived n (date + 7)
      pure (f :: rest)

/-- `draw_row` (source lines 93-112): the list of the 52 fills of one row. -/
def draw_row (today : Int) (start_month start_day : Nat) (fill_lived : Bool) (date : Int) :
    Except Unit (List Fill) :=
  draw_row_go today start_month start_day fill_lived NUM_COLUMNS date

/-- The `for i in range(years)` loop of `draw_grid` (source lines
160-176): one row per year, the row date advancing by
`timedelta(weeks=52)` = 364 days. -/
def draw_grid_go (today : Int) (sm sd : Nat) (fill_lived : Bool) :
    Nat → Int → Except Unit (List (List Fill))
  | 0, _ => .ok []
  | n + 1, date => do
      let row ← draw_row today sm sd fill_lived date
      let rest ← draw_grid_go today sm sd fill_lived n (date + 364)
      pure (row :: rest)

/-- `draw_grid(ctx, date, years, fill_lived)` (source lines 125-176)
restricted to its grid-of-fills content: `start_date = date` (line 129),
so the birthday month/day used by every row is that of the **anchored**
date handed over by `gen_calendar`. -/
def draw_grid (today : Int) (date : Int) (years : Nat) (fill_lived : Bool) :
    Except Unit (List (List Fill)) :=
  draw_grid_go today (fromOrdinal date).month (fromOrdinal date).day fill_lived years date

/-! ## `gen_calendar` and `main` (source lines 178-263) -/

def MAX_TITLE_SIZE : Nat := 30
def DOC_NAME : String := "life_calendar.pdf"
def DEFAULT_TITLE : String := "CALENDARIO DELLA VITA"

/-- Where the finished document bytes go. -/
inductive Dest where
  | file (path : String)
  | stdoutBuffer
deriving DecidableEq, Repr

/-- The errors `gen_calendar` can raise: the explicit title-length
`ValueError` (line 179-181) and the `ValueError`s escaping from the
datetime constructors inside the classifier. -/
inductive CalError where
  | lengthError
  | valueError
deriving DecidableEq, Repr

/-- One iteration of the `while date.weekday() != 0: date -= timedelta(days=1)`
loop (source lines 202-203), with fuel: the weekday cycles with period 7,
so 7 iterations always reach Monday (proved in `backToMonday_monday`),
and the fuel is never exhausted. -/
def backToMondayGo : Nat → Int → Int
  | 0, date => date
  | n + 1, date => if weekday date = 0 then date else backToMondayGo n (date - 1)

/-- The anchoring loop of `gen_calendar` (source lines 200-203): back up
to the last Monday. -/
def backToMonday (date : Int) : Int := backToMondayGo 7 date

/-- The observable outcome of a successful `gen_calendar` run: the
anchored first-row date, the classified grid, and where the PDF bytes
were written. -/
structure GenResult where
  anchor : Int
  grid : List (List Fill)
  dest : Dest
deriving DecidableEq, Repr

set_option linter.unusedVariables false in
/-- `gen_calendar(start_date, title, filename, years, fill_lived)`
(source lines 178-209): raise the length `ValueError` when the title
exceeds `MAX_TITLE_SIZE` (before anything is drawn), anchor `start_date`
back to Monday, draw the grid, and write the bytes — line 209 is
`sys.stdout.buffer.write(out.getvalue())`, unconditionally; the
`filename` parameter is never used. -/
def gen_calendar (today : Int) (start_date : Date) (title : String) (filename : Option String)
    (years : Nat) (fill_lived : Bool) : Except CalError GenResult :=
  if title.length > MAX_TITLE_SIZE then .error .lengthError
  else
    match draw_grid today (backToMonday (toOrdinal start_date)) years fill_lived with
    | .error _ => .error .valueError
    | .ok g => .ok ⟨backToMonday (toOrdinal start_date), g, .stdoutBuffer⟩

/-- `p.rfind(c)`: index of the last occurrence of `c`, `-1` when absent. -/
def rfindChar (c : Char) : List Char → Int
  | [] => -1
  | x :: xs =>
      let r := rfindChar c xs
      if 0 ≤ r then r + 1 else if x = c then 0 else -1

/-- The root part of `os.path.splitext(p)` (CPython
`genericpath._splitext` with `sep = '/'`): split at the last dot of the
basename unless every character before it in the basename is a dot. -/
def splitextRoot (p : String) : String :=
  let cs := p.data
  let sepIndex := rfindChar '/' cs
  let dotIndex := rfindChar '.' cs
  if sepIndex < dotIndex then
    let stem := (cs.drop (sepIndex + 1).toNat).take (dotIndex - sepIndex - 1).toNat
    if stem.any (fun c => decide (c ≠ '.')) then String.mk (cs.take dotIndex.toNat)
    else p
  else p

/-- The parsed command-line arguments of `main` (source lines 211-239). -/
structure Args where
  date : String
  filename : String
  stdoutFlag : Bool
  title : String
  years : Int
  fill_lived : Bool

/-- The observable outcome of `main`: a printed date-parse error, a
printed `gen_calendar` error, or a completed render. -/
inductive RunResult where
  | dateError
  | genError (e : CalError)
  | done (r : GenResult)
deriving DecidableEq, Repr

/-- `main` (source lines 211-263): parse the date (print and return on
failure), pick `doc_name` — `None` when `--stdout` is given, otherwise
`'%s.pdf' % os.path.splitext(filename)[0]` —, clamp the years with
`max(1, min(88, args.years))`, and run `gen_calendar`. -/
def main (today : Int) (args : Args) : RunResult :=
  match parse_date args.date with
  | .error _ => .dateError
  | .ok start_date =>
      let doc_name : Option String :=
        if args.stdoutFlag then none else some (splitextRoot args.filename ++ ".pdf")
      let years : Int := max 1 (min 88 args.years)
      match gen_calendar today start_date args.title doc_name years.toNat args.fill_lived with
      | .error e => .genError e
      | .ok r => .done r

/-- Observable destination of a finished run. -/
def destOf : RunResult → Option Dest
  | .done r => some r.dest
  | _ => none

/-- Observable row count of a finished run. -/
def gridLenOf : RunResult → Option Nat
  | .done r => some r.grid.length
  | _ => none

/-- `Except` success test. -/
def isOkE {ε α : Type} : Except ε α → Bool
  | .ok _ => true
  | .error _ => false

/-! ## The reference classifier, defined from the spec's words (§4.3)

These definitions follow the specification text, to be compared with the
code-derived `cellFill` above. -/

/-- Spec §4.3 step 1: "`fill_lived` is enabled AND `date` falls strictly
before the Monday of the current real-world week". -/
def specLived (today : Int) (fill_lived : Bool) (d : Int) : Prop :=
  fill_lived = true ∧ d < today - weekday today

instance : ∀ t fl d, Decidable (specLived t fl d) := by
  intro t fl d; unfold specLived; infer_instance

/-- Spec §4.3 "contains": `date <= target_date < date + 1 week`, checked
for the month/day anniversary falling in the same year as `date` and in
`date.year + 1`. -/
def spanContains (d : Int) (m day : Nat) : Prop :=
  (d ≤ toOrdinal ⟨(fromOrdinal d).year, m, day⟩
      ∧ toOrdinal ⟨(fromOrdinal d).year, m, day⟩ < d + 7)
    ∨ (d ≤ toOrdinal ⟨(fromOrdinal d).year + 1, m, day⟩
      ∧ toOrdinal ⟨(fromOrdinal d).year + 1, m, day⟩ < d + 7)

instance : ∀ d m day, Decidable (spanContains d m day) := by
  intro d m day; unfold spanContains; infer_instance

/-- Spec §4.3: the four-step first-match-wins reference classification:
LIVED, else BIRTHDAY, else NEW_YEAR, else DEFAULT (white). -/
def classifySpec (today : Int) (fill_lived : Bool) (bMonth bDay : Nat) (d : Int) : Fill :=
  if specLived today fill_lived d then .lived
  else if spanContains d bMonth bDay then .birthday
  else if spanContains d 1 1 then .newYear
  else .white

/-! ## Helper lemmas -/

lemma validDate_year_bounds {y : Int} {m d : Nat} (h : validDate y m d = true) :
    1 ≤ y ∧ y ≤ 9999 := by
  unfold validDate at h
  rw [decide_eq_true_eq] at h
  exact ⟨h.1, h.2.1⟩

lemma validDate_jan1 {y : Int} (h1 : 1 ≤ y) (h2 : y ≤ 9999) : validDate y 1 1 = true := by
  unfold validDate
  rw [decide_eq_true_eq]
  refine ⟨h1, h2, le_refl 1, by norm_num, le_refl 1, ?_⟩
  unfold daysInMonth
  norm_num

/-- With both anniversary constructions valid, `is_current_week` succeeds
and decides exactly the spec's "contains" condition. -/
lemma is_current_week_eq {now : Int} {m day : Nat}
    (h1 : validDate (fromOrdinal now).year m day = true)
    (h2 : validDate ((fromOrdinal now).year + 1) m day = true) :
    is_current_week now m day = .ok (decide (spanContains now m day)) := by
  unfold is_current_week mkDatetime spanContains
  simp only [h1, h2, if_true]
  rfl

/-- The central refinement lemma: wherever the two datetime constructions
are valid, the `draw_row` cell classification equals the spec's
four-step reference classification. -/
lemma cellFill_eq_spec (today : Int) (fl : Bool) (m day : Nat) (d : Int)
    (h1 : validDate (fromOrdinal d).year m day = true)
    (h2 : validDate ((fromOrdinal d).year + 1) m day = true) :
    cellFill today fl m day d = .ok (classifySpec today fl m day d) := by
  have hy1 := validDate_year_bounds h1
  have hy2 := validDate_year_bounds h2
  have hj1 : validDate (fromOrdinal d).year 1 1 = true := validDate_jan1 hy1.1 hy1.2
  have hj2 : validDate ((fromOrdinal d).year + 1) 1 1 = true := validDate_jan1 hy2.1 hy2.2
  unfold cellFill classifySpec
  by_cases hl : specLived today fl d
  · rw [if_pos hl]
    have : (fl && is_week_in_past today d) = true := by
      unfold is_week_in_past lastMonday
      rw [hl.1]
      simpa using hl.2
    rw [this]
    simp
  · rw [if_neg hl]
    have hg : (fl && is_week_in_past today d) = false := by
      unfold specLived at hl
      push_neg at hl
      unfold is_week_in_past lastMonday
      cases hfl : fl with
      | false => simp
      | true => simpa using hl hfl
    rw [hg]
    simp only [Bool.false_eq_true, if_false]
    rw [show (do
        let b ← is_current_week d m day
        if b then pure Fill.birthday
        else do
          let ny ← is_current_week d 1 1
          if ny then pure Fill.newYear else pure Fill.white :
        Except Unit Fill) =
      (is_current_week d m day >>= fun b =>
        if b then pure Fill.birthday
        else is_current_week d 1 1 >>= fun ny =>
          if ny then pure Fill.newYear else pure Fill.white) from rfl]
    rw [is_current_week_eq h1 h2, is_current_week_eq hj1 hj2]
    by_cases hb : spanContains d m day
    · rw [if_pos hb, decide_eq_true hb]
      rfl
    · rw [if_neg hb, decide_eq_false hb]
      by_cases hn : spanContains d 1 1
      · rw [if_pos hn, decide_eq_true hn]
        rfl
      · rw [if_neg hn, decide_eq_false hn]
        rfl

/-- The wall-clock date used in the concrete instances below:
2026-10-12, a Monday. -/
def today0 : Int := 739901

example : today0 = toOrdinal ⟨2026, 10, 12⟩ := by decide
example : splitextRoot "foo.txt" = "foo" := by decide
example : splitextRoot "life_calendar.pdf" = "life_calendar" := by decide
example : splitextRoot "noext" = "noext" := by decide
example : splitextRoot ".bashrc" = ".bashrc" := by decide
example : backToMonday (toOrdinal ⟨1990, 3, 15⟩) = toOrdinal ⟨1990, 3, 12⟩ := by decide
example :
    destOf (main today0 ⟨"15/03/1990", "foo.txt", false, "T", 1, false⟩) =
      some Dest.stdoutBuffer := by decide
example :
    gridLenOf (main today0 ⟨"15/03/1990", "foo.txt", false, "T", 3, true⟩) = some 3 := by
  decide

end LifeCal

namespace LifeCal

lemma backToMonday_spec (o : Int) :
    weekday (backToMonday o) = 0 ∧ backToMonday o ≤ o ∧ o < backToMonday o + 7 := by
  unfold backToMonday
  simp only [backToMondayGo, weekday]
  split_ifs <;> omega

/-- Claim C1: for every grid cell date `d`, birth month/day and
`fill_lived` flag, the code's cell classification equals the spec's
four-step reference definition (LIVED first, then BIRTHDAY by the
dual-year one-week span, then NEW_YEAR, then DEFAULT/white), provided
the two anniversary datetime constructions the code performs are valid. -/
theorem c1_classifier_matches_reference (today : Int) (fl : Bool) (bMonth bDay : Nat) (d : Int)
    (h1 : validDate (fromOrdinal d).year bMonth bDay = true)
    (h2 : validDate ((fromOrdinal d).year + 1) bMonth bDay = true) :
    cellFill today fl bMonth bDay d = .ok (classifySpec today fl bMonth bDay d) :=
  cellFill_eq_spec today fl bMonth bDay d h1 h2

/-- Witness for C1 at a concrete cell: the Monday 2021-03-15 with birth
month/day 15 March, `fill_lived` on, "today" = 2026-10-12. -/
theorem c1_witness :
    validDate (fromOrdinal (toOrdinal ⟨2021, 3, 15⟩)).year 3 15 = true ∧
    validDate ((fromOrdinal (toOrdinal ⟨2021, 3, 15⟩)).year + 1) 3 15 = true ∧
    cellFill today0 true 3 15 (toOrdinal ⟨2021, 3, 15⟩) =
      .ok (classifySpec today0 true 3 15 (toOrdinal ⟨2021, 3, 15⟩)) :=
  ⟨by decide, by decide,
    c1_classifier_matches_reference today0 true 3 15 (toOrdinal ⟨2021, 3, 15⟩)
      (by decide) (by decide)⟩

/-- Claim C3: exactly one of the four states is selected, first-match
wins: each state is returned precisely under its own condition with all
earlier conditions false; in particular LIVED takes precedence over
BIRTHDAY (the witness instantiates the exact birthday-anniversary Monday
with `fill_lived` on and the date in the past). -/
theorem c3_exactly_one_state (today : Int) (fl : Bool) (bMonth bDay : Nat) (d : Int)
    (h1 : validDate (fromOrdinal d).year bMonth bDay = true)
    (h2 : validDate ((fromOrdinal d).year + 1) bMonth bDay = true) :
    (cellFill today fl bMonth bDay d = .ok .lived ↔ specLived today fl d) ∧
    (cellFill today fl bMonth bDay d = .ok .birthday ↔
      ¬specLived today fl d ∧ spanContains d bMonth bDay) ∧
    (cellFill today fl bMonth bDay d = .ok .newYear ↔
      ¬specLived today fl d ∧ ¬spanContains d bMonth bDay ∧ spanContains d 1 1) ∧
    (cellFill today fl bMonth bDay d = .ok .white ↔
      ¬specLived today fl d ∧ ¬spanContains d bMonth bDay ∧ ¬spanContains d 1 1) := by
  rw [cellFill_eq_spec today fl bMonth bDay d h1 h2]
  unfold classifySpec
  by_cases hl : specLived today fl d <;> by_cases hb : spanContains d bMonth bDay <;>
    by_cases hn : spanContains d 1 1 <;> simp [hl, hb, hn]

/-- Witness for C3: the cell dated exactly on the birthday-anniversary
Monday 2021-03-15, `fill_lived` on, in the past of 2026-10-12: the
result is LIVED and not BIRTHDAY. -/
theorem c3_witness :
    cellFill today0 true 3 15 (toOrdinal ⟨2021, 3, 15⟩) = .ok .lived ∧
    cellFill today0 true 3 15 (toOrdinal ⟨2021, 3, 15⟩) ≠ .ok .birthday := by
  have h := c3_exactly_one_state today0 true 3 15 (toOrdinal ⟨2021, 3, 15⟩)
    (by decide) (by decide)
  have h1 := h.1.mpr (by decide)
  refine ⟨h1, ?_⟩
  rw [h1]
  decide

/-- Claim C4: a successful `gen_calendar` run anchors its first-row date
to `backToMonday start`, unconditionally; that date is a Monday and
satisfies `anchored <= start < anchored + 7 days`. -/
theorem c4_anchor_is_monday (today : Int) (start : Date) (title : String)
    (fname : Option String) (years : Nat) (fl : Bool) (r : GenResult)
    (h : gen_calendar today start title fname years fl = .ok r) :
    r.anchor = backToMonday (toOrdinal start) ∧ weekday r.anchor = 0 ∧
      r.anchor ≤ toOrdinal start ∧ toOrdinal start < r.anchor + 7 := by
  have ha : r.anchor = backToMonday (toOrdinal start) := by
    unfold gen_calendar at h
    by_cases ht : title.length > MAX_TITLE_SIZE
    · rw [if_pos ht] at h
      cases h
    · rw [if_neg ht] at h
      cases hg : draw_grid today (backToMonday (toOrdinal start)) years fl with
      | error e => rw [hg] at h; cases h
      | ok g =>
          rw [hg] at h
          cases h
          rfl
  obtain ⟨hw, hle, hlt⟩ := backToMonday_spec (toOrdinal start)
  rw [← ha] at hw hle hlt
  exact ⟨ha, hw, hle, hlt⟩

/-- Witness for C4: a concrete successful run from start date
15 March 1990 (a Thursday). -/
theorem c4_witness :
    weekday (backToMonday (toOrdinal ⟨1990, 3, 15⟩)) = 0 ∧
    backToMonday (toOrdinal ⟨1990, 3, 15⟩) ≤ toOrdinal ⟨1990, 3, 15⟩ ∧
    toOrdinal ⟨1990, 3, 15⟩ < backToMonday (toOrdinal ⟨1990, 3, 15⟩) + 7 := by
  cases hg : gen_calendar today0 ⟨1990, 3, 15⟩ "T" none 1 false with
  | error e =>
      have hok : isOkE (gen_calendar today0 ⟨1990, 3, 15⟩ "T" none 1 false) = true := by decide
      rw [hg] at hok
      cases hok
  | ok r =>
      obtain ⟨ha, hw, hle, hlt⟩ :=
        c4_anchor_is_monday today0 ⟨1990, 3, 15⟩ "T" none 1 false r hg
      rw [ha] at hw hle hlt
      exact ⟨hw, hle, hlt⟩

end LifeCal

namespace LifeCal

lemma daysInMonth_ge_28 (y : Int) (m : Nat) : 28 ≤ daysInMonth y m := by
  unfold daysInMonth
  split_ifs <;> norm_num

lemma validDate_of_bounds {y : Int} {m day : Nat} (hy1 : 1 ≤ y) (hy2 : y ≤ 9999)
    (hm1 : 1 ≤ m) (hm2 : m ≤ 12) (hd1 : 1 ≤ day) (hd2 : day ≤ 28) :
    validDate y m day = true := by
  unfold validDate
  rw [decide_eq_true_eq]
  exact ⟨hy1, hy2, hm1, hm2, hd1, le_trans hd2 (daysInMonth_ge_28 y m)⟩

lemma year_range (d : Int) (h1 : 700000 ≤ d) (h2 : d ≤ 760000) :
    1 ≤ (fromOrdinal d).year ∧ (fromOrdinal d).year + 1 ≤ 9999 := by
  unfold fromOrdinal
  dsimp only
  split_ifs <;> omega

/-- Every cell whose month/day pair exists in every year (day at most 28)
classifies without raising, for cell dates in the 1917-2082 ordinal range. -/
lemma cellFill_ok (today : Int) (fl : Bool) (m day : Nat) (e : Int)
    (hm1 : 1 ≤ m) (hm2 : m ≤ 12) (hd1 : 1 ≤ day) (hd2 : day ≤ 28)
    (he1 : 700000 ≤ e) (he2 : e ≤ 760000) :
    ∃ f, cellFill today fl m day e = .ok f := by
  obtain ⟨hy1, hy2⟩ := year_range e he1 he2
  exact ⟨classifySpec today fl m day e,
    cellFill_eq_spec today fl m day e
      (validDate_of_bounds hy1 (by omega) hm1 hm2 hd1 hd2)
      (validDate_of_bounds (by omega) hy2 hm1 hm2 hd1 hd2)⟩

/-- When every cell of a row classifies, `draw_row_go` returns a row of
exactly `n` fills. -/
lemma draw_row_go_len (today : Int) (m day : Nat) (fl : Bool) (lo hi : Int)
    (hok : ∀ e, lo ≤ e → e ≤ hi → ∃ f, cellFill today fl m day e = .ok f) :
    ∀ (n : Nat) (d : Int), lo ≤ d → d + 7 * n ≤ hi + 7 →
      (draw_row_go today m day fl n d).map List.length = .ok n := by
  intro n
  induction n with
  | zero => intro d _ _; rfl
  | succ k ih =>
      intro d hd1 hd2
      obtain ⟨f, hf⟩ := hok d hd1 (by omega)
      have hrest := ih (d + 7) (by omega) (by omega)
      unfold draw_row_go
      rw [show (do
            let f ← cellFill today fl m day d
            let rest ← draw_row_go today m day fl k (d + 7)
            pure (f :: rest) : Except Unit (List Fill)) =
          (cellFill today fl m day d >>= fun f =>
            draw_row_go today m day fl k (d + 7) >>= fun rest =>
              pure (f :: rest)) from rfl]
      rw [hf]
      cases hr : draw_row_go today m day fl k (d + 7) with
      | error e => rw [hr] at hrest; cases hrest
      | ok g =>
          rw [hr] at hrest
          have hlen : g.length = k := by
            simpa [Except.map] using hrest
          show Except.map List.length (Except.ok (f :: g)) = Except.ok (k + 1)
          simp [Except.map, hlen]

/-- When every cell classifies, `draw_grid_go` returns exactly `n` rows. -/
lemma draw_grid_go_len (today : Int) (m day : Nat) (fl : Bool) (lo hi : Int)
    (hok : ∀ e, lo ≤ e → e ≤ hi → ∃ f, cellFill today fl m day e = .ok f) :
    ∀ (n : Nat) (d : Int), lo ≤ d → d + 364 * n ≤ hi + 7 →
      (draw_grid_go today m day fl n d).map List.length = .ok n := by
  intro n
  induction n with
  | zero => intro d _ _; rfl
  | succ k ih =>
      intro d hd1 hd2
      have hrow : (draw_row today m day fl d).map List.length = .ok 52 := by
        unfold draw_row NUM_COLUMNS
        exact draw_row_go_len today m day fl lo hi hok 52 d hd1 (by omega)
      have hrest := ih (d + 364) (by omega) (by omega)
      unfold draw_grid_go
      rw [show (do
            let row ← draw_row today m day fl d
            let rest ← draw_grid_go today m day fl k (d + 364)
            pure (row :: rest) : Except Unit (List (List Fill))) =
          (draw_row today m day fl d >>= fun row =>
            draw_grid_go today m day fl k (d + 364) >>= fun rest =>
              pure (row :: rest)) from rfl]
      cases hw : draw_row today m day fl d with
      | error e => rw [hw] at hrow; cases hrow
      | ok row =>
          cases hr : draw_grid_go today m day fl k (d + 364) with
          | error e => rw [hr] at hrest; cases hrest
          | ok g =>
              rw [hr] at hrest
              have hlen : g.length = k := by simpa [Except.map] using hrest
              show Except.map List.length (Except.ok (row :: g)) = Except.ok (k + 1)
              simp [Except.map, hlen]

end LifeCal

namespace LifeCal

/-- Claim C5: the requested life expectancy is silently clamped to [1, 88]
before layout: with the clamp `max(1, min(88, years))` applied by `main`,
the rendered grid has exactly that many rows for every integer request;
in particular 200 requested years yield 88 rows and 0 requested years
yield 1 row, with no error raised. -/
theorem c5_years_clamped :
    (∀ (y : Int) (fl : Bool),
      gridLenOf (main today0 ⟨"15/03/1990", "foo.txt", false, "T", y, fl⟩)
        = some (max 1 (min 88 y)).toNat) ∧
    gridLenOf (main today0 ⟨"15/03/1990", "foo.txt", false, "T", 200, false⟩) = some 88 ∧
    gridLenOf (main today0 ⟨"15/03/1990", "foo.txt", false, "T", 0, false⟩) = some 1 := by
  have hmain : ∀ (y : Int) (fl : Bool),
      gridLenOf (main today0 ⟨"15/03/1990", "foo.txt", false, "T", y, fl⟩)
        = some (max 1 (min 88 y)).toNat := by
    intro y fl
    unfold main
    rw [show parse_date "15/03/1990" = .ok ⟨1990, 3, 15⟩ from by decide]
    dsimp only
    unfold gen_calendar
    rw [if_neg (by decide : ¬("T".length > MAX_TITLE_SIZE))]
    rw [show backToMonday (toOrdinal ⟨1990, 3, 15⟩) = 726538 from by decide]
    unfold draw_grid
    rw [show fromOrdinal 726538 = ⟨1990, 3, 12⟩ from by decide]
    dsimp only
    have hgrid := draw_grid_go_len today0 3 12 fl 726538 758570
      (fun e he1 he2 => cellFill_ok today0 fl 3 12 e (by norm_num) (by norm_num)
        (by norm_num) (by norm_num) (by omega) (by omega))
      (max 1 (min 88 y)).toNat 726538 (by omega) (by omega)
    cases hg : draw_grid_go today0 3 12 fl (max 1 (min 88 y)).toNat 726538 with
    | error e => rw [hg] at hgrid; cases hgrid
    | ok g =>
        rw [hg] at hgrid
        have hlen : g.length = (max 1 (min 88 y)).toNat := by
          simpa [Except.map] using hgrid
        dsimp only [gridLenOf]
        rw [hlen]
  exact ⟨hmain, by have h := hmain 200 false; simpa using h,
    by have h := hmain 0 false; simpa using h⟩

end LifeCal

namespace LifeCal

/-- Claim C6: `gen_calendar` raises the length error exactly when the
title exceeds 30 characters, independently of every other argument (the
check precedes all drawing); a 30-character title succeeds on otherwise
valid inputs and a 31-character title fails. -/
theorem c6_title_boundary :
    (∀ (today : Int) (start : Date) (title : String) (fname : Option String)
        (years : Nat) (fl : Bool),
      gen_calendar today start title fname years fl = .error .lengthError ↔
        30 < title.length) ∧
    isOkE (gen_calendar today0 ⟨1990, 3, 15⟩ "tttttttttttttttttttttttttttttt" none 1 false)
      = true ∧
    gen_calendar today0 ⟨1990, 3, 15⟩ "ttttttttttttttttttttttttttttttt" none 1 false
      = .error .lengthError := by
  refine ⟨?_, by decide, by decide⟩
  intro today start title fname years fl
  unfold gen_calendar
  by_cases ht : title.length > MAX_TITLE_SIZE
  · rw [if_pos ht]
    simpa [MAX_TITLE_SIZE] using ht
  · rw [if_neg ht]
    constructor
    · intro h
      cases hg : draw_grid today (backToMonday (toOrdinal start)) years fl with
      | error e => rw [hg] at h; simp at h
      | ok g => rw [hg] at h; simp at h
    · intro h
      exact absurd h (by simpa [MAX_TITLE_SIZE] using ht)

/-- Claim C2 (refuted; code bug): `main` computes the `.pdf`-enforced
file name `foo.pdf` for `--filename foo.txt` without `--stdout`, yet the
finished run's bytes still go to `sys.stdout.buffer`: `gen_calendar`
writes `out.getvalue()` to standard output unconditionally (line 209)
and never opens the file. -/
theorem c2_bytes_always_to_stdout :
    splitextRoot "foo.txt" ++ ".pdf" = "foo.pdf" ∧
    destOf (main today0 ⟨"15/03/1990", "foo.txt", false, "T", 1, false⟩)
      = some Dest.stdoutBuffer ∧
    destOf (main today0 ⟨"15/03/1990", "foo.txt", true, "T", 1, false⟩)
      = some Dest.stdoutBuffer := by
  refine ⟨by decide, by decide, by decide⟩

end LifeCal

namespace LifeCal

lemma ok_bind {ε α β : Type} (a : α) (f : α → Except ε β) : (Except.ok a >>= f) = f a := rfl

lemma error_bind {ε α β : Type} (e : ε) (f : α → Except ε β) :
    (Except.error e >>= f) = Except.error e := rfl

lemma isLeap_succ {y : Int} (h : isLeap y = true) : isLeap (y + 1) = false := by
  have h4 : y % 4 = 0 := by
    unfold isLeap at h
    simp only [Bool.and_eq_true, beq_iff_eq] at h
    exact h.1
  unfold isLeap
  have hne : ((y + 1) % 4 == 0) = false := by
    rw [beq_eq_false_iff_ne]
    omega
  rw [hne, Bool.false_and]

lemma validDate_feb29 (y : Int) (h : validDate y 2 29 = true) : isLeap y = true := by
  unfold validDate at h
  rw [decide_eq_true_eq] at h
  by_cases hl : isLeap y
  · exact hl
  · exfalso
    have h29 := h.2.2.2.2.2
    unfold daysInMonth at h29
    rw [if_pos rfl, if_neg hl] at h29
    omega

/-- Claim C10 as amended: for the birth date 29 February (which
`parse_date` accepts in a leap year), every cell for which the LIVED
branch does not fire — `fill_lived` off, or the cell date not strictly
before the current week's Monday — raises instead of classifying,
because at least one of the two eagerly constructed anniversary dates
falls in a non-leap year. -/
theorem c10_feb29_raises (today : Int) (fl : Bool) (d : Int)
    (h : fl = false ∨ lastMonday today ≤ d) :
    cellFill today fl 2 29 d = .error () := by
  have hguard : (fl && is_week_in_past today d) = false := by
    cases h with
    | inl h => rw [h]; rfl
    | inr h =>
        unfold is_week_in_past
        rw [decide_eq_false (by omega), Bool.and_false]
  have hicw : is_current_week d 2 29 = .error () := by
    unfold is_current_week mkDatetime
    cases hv1 : validDate (fromOrdinal d).year 2 29 with
    | false =>
        simp only [hv1, Bool.false_eq_true, if_false]
        rfl
    | true =>
        have hl := validDate_feb29 _ hv1
        have hv2 : validDate ((fromOrdinal d).year + 1) 2 29 = false := by
          cases hv2 : validDate ((fromOrdinal d).year + 1) 2 29 with
          | false => rfl
          | true =>
              have hcontra := validDate_feb29 _ hv2
              rw [isLeap_succ hl] at hcontra
              cases hcontra
        simp only [hv1, hv2, if_true, Bool.false_eq_true, if_false]
        rfl
  unfold cellFill
  rw [hguard]
  simp only [Bool.false_eq_true, if_false]
  rw [show (do
        let b ← is_current_week d 2 29
        if b then pure Fill.birthday
        else do
          let ny ← is_current_week d 1 1
          if ny then pure Fill.newYear else pure Fill.white : Except Unit Fill) =
      (is_current_week d 2 29 >>= fun b =>
        if b then pure Fill.birthday
        else is_current_week d 1 1 >>= fun ny =>
          if ny then pure Fill.newYear else pure Fill.white) from rfl]
  rw [hicw, error_bind]

/-- Witness for C10's amended theorem: `fill_lived` off, at the Monday
cell 2027-03-01. -/
theorem c10_witness :
    parse_date "29/02/2016" = .ok ⟨2016, 2, 29⟩ ∧
    cellFill today0 false 2 29 (toOrdinal ⟨2027, 3, 1⟩) = .error () :=
  ⟨by decide, c10_feb29_raises today0 false (toOrdinal ⟨2027, 3, 1⟩) (Or.inl rfl)⟩

/-- Counterexample to C10 as stated: the Feb-29 birth date parses, 2017 is
not a leap year, yet the past cell Monday 2017-03-13 with `fill_lived` on
is classified LIVED — no exception. -/
theorem c10_counterexample :
    parse_date "29/02/2016" = .ok ⟨2016, 2, 29⟩ ∧
    cellFill today0 true 2 29 (toOrdinal ⟨2017, 3, 13⟩) = .ok .lived :=
  ⟨by decide, by decide⟩

end LifeCal

namespace LifeCal

lemma parse_date_eq (s : String) :
    parse_date s = (match strptimeDMY '/' s with
      | some d => .ok d
      | none => match strptimeDMY '-' s with
        | some d => .ok d
        | none => .error ()) := rfl

/-- Claim C7: `parse_date` tries `dd/mm/yyyy` first, `dd-mm-yyyy` second,
returns the first successful parse, and raises the format error exactly
when neither format matches. -/
theorem c7_parse_order (s : String) :
    (∀ d, strptimeDMY '/' s = some d → parse_date s = .ok d) ∧
    (strptimeDMY '/' s = none → ∀ d, strptimeDMY '-' s = some d → parse_date s = .ok d) ∧
    (parse_date s = .error () ↔ strptimeDMY '/' s = none ∧ strptimeDMY '-' s = none) := by
  have he := parse_date_eq s
  revert he
  generalize h1 : strptimeDMY '/' s = o1
  generalize h2 : strptimeDMY '-' s = o2
  intro he
  cases o1 with
  | some d0 =>
      refine ⟨?_, ?_, ?_⟩
      · intro d hd
        injection hd with h
        rw [he, h]
      · intro hn
        cases hn
      · rw [he]
        constructor
        · intro hc; cases hc
        · intro hc; cases hc.1
  | none =>
      cases o2 with
      | some d0 =>
          refine ⟨?_, ?_, ?_⟩
          · intro d hd; cases hd
          · intro _ d hd
            injection hd with h
            rw [he, h]
          · rw [he]
            constructor
            · intro hc; cases hc
            · intro hc; cases hc.2
      | none =>
          exact ⟨fun d hd => Option.noConfusion hd, fun _ d hd => Option.noConfusion hd,
            (by rw [he]; exact ⟨fun _ => ⟨rfl, rfl⟩, fun _ => rfl⟩)⟩

/-- Witness for C7: both formats at a concrete date, and a rejected
`yyyy-mm-dd` input. -/
theorem c7_witness :
    parse_date "15/03/1990" = .ok ⟨1990, 3, 15⟩ ∧
    parse_date "15-03-1990" = .ok ⟨1990, 3, 15⟩ ∧
    parse_date "1990-03-15" = .error () :=
  ⟨(c7_parse_order "15/03/1990").1 _ (by decide),
    (c7_parse_order "15-03-1990").2.1 (by decide) _ (by decide),
    (c7_parse_order "1990-03-15").2.2.mpr ⟨by decide, by decide⟩⟩

/-- Claim C8 (refuted; code bug): the source computes `stripped =
date.strip()` but passes the unstripped `date` to both `strptime`
attempts, so an otherwise-valid date surrounded by whitespace raises the
format error instead of parsing like its trimmed form. -/
theorem c8_trim_never_used :
    pyStrip " 15/03/1990 " = "15/03/1990" ∧
    parse_date "15/03/1990" = .ok ⟨1990, 3, 15⟩ ∧
    parse_date " 15/03/1990 " = .error () :=
  ⟨by decide, by decide, by decide⟩

end LifeCal

namespace LifeCal

/-- The digit character for a value below ten. -/
def digitChar (n : Nat) : Char := Char.ofNat (48 + n)

/-- The two-digit zero-padded `dd`/`mm` field of the accepted patterns. -/
def pad2 (n : Nat) : List Char := [digitChar (n / 10), digitChar (n % 10)]

/-- The four-digit zero-padded `yyyy` field of the accepted patterns. -/
def pad4 (n : Nat) : List Char :=
  [digitChar (n / 1000), digitChar (n / 100 % 10), digitChar (n / 10 % 10), digitChar (n % 10)]

/-- A calendar date rendered through an accepted pattern
`dd sep mm sep yyyy` (spec §8: "formatting a parsed date back through
the accepted patterns"). -/
def formatDate (sep : Char) (d : Date) : String :=
  String.mk (pad2 d.day ++ sep :: (pad2 d.month ++ sep :: pad4 d.year.toNat))

lemma digitChar_spec (k : Nat) (hk : k < 10) :
    (digitChar k).isDigit = true ∧ digitVal (digitChar k) = k ∧
      digitChar k ≠ '/' ∧ digitChar k ≠ '-' := by
  interval_cases k <;> exact ⟨by decide, by decide, by decide, by decide⟩

lemma findSome?_cons {α β : Type} (f : α → Option β) (a : α) (l : List α) :
    (a :: l).findSome? f = match f a with | some b => some b | none => l.findSome? f := rfl

lemma matchDay_pad2_ge10 (n : Nat) (h1 : 10 ≤ n) (h2 : n ≤ 31) (r : List Char) :
    matchDay (pad2 n ++ r) = [(n, r), (n / 10, digitChar (n % 10) :: r)] := by
  have ha := digitChar_spec (n / 10) (by omega)
  have hb := digitChar_spec (n % 10) (by omega)
  have hcons : pad2 n ++ r = digitChar (n / 10) :: digitChar (n % 10) :: r := rfl
  rw [hcons]
  simp only [matchDay]
  rw [ha.1, hb.1, ha.2.1, hb.2.1]
  have hv : 10 * (n / 10) + n % 10 = n := by omega
  rw [hv]
  rw [decide_eq_true (show 1 ≤ n ∧ n ≤ 31 from ⟨by omega, h2⟩)]
  rw [decide_eq_true (show 1 ≤ n / 10 from by omega)]
  simp

lemma matchDay_pad2_lt10 (n : Nat) (h1 : 1 ≤ n) (h2 : n < 10) (r : List Char) :
    matchDay (pad2 n ++ r) = [(n, r)] := by
  have ha := digitChar_spec (n / 10) (by omega)
  have hb := digitChar_spec (n % 10) (by omega)
  have hcons : pad2 n ++ r = digitChar (n / 10) :: digitChar (n % 10) :: r := rfl
  rw [hcons]
  simp only [matchDay]
  rw [ha.1, hb.1, ha.2.1, hb.2.1]
  have hv : 10 * (n / 10) + n % 10 = n := by omega
  rw [hv]
  rw [decide_eq_true (show 1 ≤ n ∧ n ≤ 31 from ⟨h1, by omega⟩)]
  rw [decide_eq_false (show ¬(1 ≤ n / 10) from by omega)]
  simp

lemma matchMonth_pad2_ge10 (n : Nat) (h1 : 10 ≤ n) (h2 : n ≤ 12) (r : List Char) :
    matchMonth (pad2 n ++ r) = [(n, r), (n / 10, digitChar (n % 10) :: r)] := by
  have ha := digitChar_spec (n / 10) (by omega)
  have hb := digitChar_spec (n % 10) (by omega)
  have hcons : pad2 n ++ r = digitChar (n / 10) :: digitChar (n % 10) :: r := rfl
  rw [hcons]
  simp only [matchMonth]
  rw [ha.1, hb.1, ha.2.1, hb.2.1]
  have hv : 10 * (n / 10) + n % 10 = n := by omega
  rw [hv]
  rw [decide_eq_true (show 1 ≤ n ∧ n ≤ 12 from ⟨by omega, h2⟩)]
  rw [decide_eq_true (show 1 ≤ n / 10 from by omega)]
  simp

lemma matchMonth_pad2_lt10 (n : Nat) (h1 : 1 ≤ n) (h2 : n < 10) (r : List Char) :
    matchMonth (pad2 n ++ r) = [(n, r)] := by
  have ha := digitChar_spec (n / 10) (by omega)
  have hb := digitChar_spec (n % 10) (by omega)
  have hcons : pad2 n ++ r = digitChar (n / 10) :: digitChar (n % 10) :: r := rfl
  rw [hcons]
  simp only [matchMonth]
  rw [ha.1, hb.1, ha.2.1, hb.2.1]
  have hv : 10 * (n / 10) + n % 10 = n := by omega
  rw [hv]
  rw [decide_eq_true (show 1 ≤ n ∧ n ≤ 12 from ⟨h1, by omega⟩)]
  rw [decide_eq_false (show ¬(1 ≤ n / 10) from by omega)]
  simp

lemma matchYear_pad4 (n : Nat) (h : n ≤ 9999) (r : List Char) :
    matchYear (pad4 n ++ r) = some (n, r) := by
  have ha := digitChar_spec (n / 1000) (by omega)
  have hb := digitChar_spec (n / 100 % 10) (by omega)
  have hc := digitChar_spec (n / 10 % 10) (by omega)
  have hd := digitChar_spec (n % 10) (by omega)
  have hcons : pad4 n ++ r = digitChar (n / 1000) :: digitChar (n / 100 % 10) ::
      digitChar (n / 10 % 10) :: digitChar (n % 10) :: r := rfl
  rw [hcons]
  simp only [matchYear]
  rw [ha.1, hb.1, hc.1, hd.1, ha.2.1, hb.2.1, hc.2.1, hd.2.1]
  have hv : 1000 * (n / 1000) + 100 * (n / 100 % 10) + 10 * (n / 10 % 10) + n % 10 = n := by
    omega
  rw [hv]
  simp

lemma daysInMonth_le_31 (y : Int) (m : Nat) : daysInMonth y m ≤ 31 := by
  unfold daysInMonth
  split_ifs <;> norm_num

lemma validDate_fields {y : Int} {m d : Nat} (h : validDate y m d = true) :
    1 ≤ y ∧ y ≤ 9999 ∧ 1 ≤ m ∧ m ≤ 12 ∧ 1 ≤ d ∧ d ≤ 31 := by
  unfold validDate at h
  rw [decide_eq_true_eq] at h
  exact ⟨h.1, h.2.1, h.2.2.1, h.2.2.2.1, h.2.2.2.2.1,
    le_trans h.2.2.2.2.2 (daysInMonth_le_31 y m)⟩

lemma dayCont_eval (sep : Char) (v : Nat) (c : Char) (r : List Char) :
    dayCont sep (v, c :: r)
      = if c = sep then (matchMonth r).findSome? (monthCont sep v) else none := rfl

lemma monthCont_eval (sep : Char) (dayv v : Nat) (c : Char) (r : List Char) :
    monthCont sep dayv (v, c :: r) = if c = sep then
      (match matchYear r with
        | some (y, []) =>
            if validDate (Int.ofNat y) v dayv then some ⟨Int.ofNat y, v, dayv⟩ else none
        | _ => none)
      else none := rfl

/-- Round trip through one accepted pattern: formatting a valid date and
re-parsing it with the same separator recovers the date. -/
lemma strptime_format (sep : Char) (d : Date)
    (hv : validDate d.year d.month d.day = true) :
    strptimeDMY sep (formatDate sep d) = some d := by
  obtain ⟨dy, dm, dd⟩ := d
  dsimp only at hv
  obtain ⟨hy1, hy2, hm1, hm2, hd1, hd2⟩ := validDate_fields hv
  have hyear : matchYear (pad4 dy.toNat) = some (dy.toNat, []) := by
    have hy := matchYear_pad4 dy.toNat (by omega) []
    rwa [List.append_nil] at hy
  have hofn : Int.ofNat dy.toNat = dy := Int.toNat_of_nonneg (by omega)
  have hmonthstep : monthCont sep dd (dm, sep :: pad4 dy.toNat) = some ⟨dy, dm, dd⟩ := by
    rw [monthCont_eval, if_pos rfl, hyear]
    show (if validDate (Int.ofNat dy.toNat) dm dd = true
        then some (⟨Int.ofNat dy.toNat, dm, dd⟩ : Date) else none) = some (⟨dy, dm, dd⟩ : Date)
    rw [hofn, if_pos hv]
  have hmonth : (matchMonth (pad2 dm ++ sep :: pad4 dy.toNat)).findSome? (monthCont sep dd)
      = some ⟨dy, dm, dd⟩ := by
    rcases Nat.lt_or_ge dm 10 with hlt | hge
    · rw [matchMonth_pad2_lt10 dm hm1 hlt, findSome?_cons, hmonthstep]
    · rw [matchMonth_pad2_ge10 dm hge hm2, findSome?_cons, hmonthstep]
  have hdaystep : dayCont sep (dd, sep :: (pad2 dm ++ sep :: pad4 dy.toNat))
      = some ⟨dy, dm, dd⟩ := by
    rw [dayCont_eval, if_pos rfl, hmonth]
  have hdata : (formatDate sep ⟨dy, dm, dd⟩).data
      = pad2 dd ++ sep :: (pad2 dm ++ sep :: pad4 dy.toNat) := rfl
  unfold strptimeDMY
  rw [hdata]
  rcases Nat.lt_or_ge dd 10 with hlt | hge
  · rw [matchDay_pad2_lt10 dd hd1 hlt, findSome?_cons, hdaystep]
  · rw [matchDay_pad2_ge10 dd hge hd2, findSome?_cons, hdaystep]

/-- The `dd/mm/yyyy` attempt rejects a dash-formatted date (so the second
format gets its turn). -/
lemma strptime_cross (d : Date) (hv : validDate d.year d.month d.day = true) :
    strptimeDMY '/' (formatDate '-' d) = none := by
  obtain ⟨dy, dm, dd⟩ := d
  dsimp only at hv
  obtain ⟨hy1, hy2, hm1, hm2, hd1, hd2⟩ := validDate_fields hv
  have hdata : (formatDate '-' ⟨dy, dm, dd⟩).data
      = pad2 dd ++ '-' :: (pad2 dm ++ '-' :: pad4 dy.toNat) := rfl
  unfold strptimeDMY
  rw [hdata]
  have hstep1 : dayCont '/' (dd, '-' :: (pad2 dm ++ '-' :: pad4 dy.toNat)) = none := by
    rw [dayCont_eval, if_neg (by decide)]
  rcases Nat.lt_or_ge dd 10 with hlt | hge
  · rw [matchDay_pad2_lt10 dd hd1 hlt, findSome?_cons, hstep1]
    rfl
  · rw [matchDay_pad2_ge10 dd hge hd2, findSome?_cons, hstep1]
    have hb := digitChar_spec (dd % 10) (by omega)
    have hstep2 : dayCont '/'
        (dd / 10, digitChar (dd % 10) :: '-' :: (pad2 dm ++ '-' :: pad4 dy.toNat)) = none := by
      rw [dayCont_eval, if_neg hb.2.2.1]
    rw [findSome?_cons, hstep2]
    rfl

/-- Claim C9: date parsing round-trips: formatting a valid calendar date
through either accepted pattern and re-parsing yields the same date. -/
theorem c9_roundtrip (d : Date) (hv : validDate d.year d.month d.day = true) :
    parse_date (formatDate '/' d) = .ok d ∧ parse_date (formatDate '-' d) = .ok d := by
  constructor
  · rw [parse_date_eq, strptime_format '/' d hv]
  · rw [parse_date_eq, strptime_cross d hv, strptime_format '-' d hv]

/-- Witness for C9 at 15 March 1990. -/
theorem c9_witness :
    validDate (1990 : Int) 3 15 = true ∧
    parse_date (formatDate '/' ⟨1990, 3, 15⟩) = .ok ⟨1990, 3, 15⟩ ∧
    parse_date (formatDate '-' ⟨1990, 3, 15⟩) = .ok ⟨1990, 3, 15⟩ :=
  ⟨by decide, (c9_roundtrip ⟨1990, 3, 15⟩ (by decide)).1,
    (c9_roundtrip ⟨1990, 3, 15⟩ (by decide)).2⟩

end LifeCal
